import Mathlib

/-!
Verification of the SEC EDGAR MCP server (sec-edgar-mcp).

The repository's own code consists of server.py (tool wrappers, the pure
utility get_recommended_tools, and registration/bootstrap) and
utils/constants.py.  The tool-class implementations (CompanyTools,
FilingsTools, FinancialTools, InsiderTools) are external; where a claim
depends on them, the corresponding operation is modelled from the spec,
as marked in each doc comment.

Python dictionaries are embedded as association lists of string keys and
JSON-like values; Python str.upper() is embedded as String.toUpper (the
form-type keys involved are all ASCII, where the two functions agree).
-/

/-- A JSON-like value: the shape of the dictionaries the Python tools return. -/
inductive Value where
  | vBool : Bool → Value
  | vStr : String → Value
  | vList : List Value → Value
  | vDict : List (String × Value) → Value

/-- Dictionary key lookup on a Value (none when the value is not a dict or
the key is absent). -/
def Value.getKey : Value → String → Option Value
  | Value.vDict kvs, k => kvs.lookup k
  | _, _ => none

/-- The key list of a dict value, in insertion order. -/
def Value.keys : Value → Option (List String)
  | Value.vDict kvs => some (kvs.map Prod.fst)
  | _ => none

/-- Is this value a string? -/
def Value.isStr : Value → Bool
  | Value.vStr _ => true
  | _ => false

/-- Is this value a list whose elements are all strings? -/
def Value.isStrList : Value → Bool
  | Value.vList xs => xs.all Value.isStr
  | _ => false

/-- The static recommendation table built inside get_recommended_tools
(server.py lines 416-466): form type to tools, description and tips. -/
def recommendations : List (String × Value) := [
  ("10-K", Value.vDict [
    ("tools", Value.vList [Value.vStr "get_financials", Value.vStr "get_filing_sections",
      Value.vStr "get_segment_data", Value.vStr "get_key_metrics"]),
    ("description", Value.vStr "Annual report with comprehensive business and financial information"),
    ("tips", Value.vList [
      Value.vStr "Use get_financials to extract financial statements",
      Value.vStr "Use get_filing_sections to read business description and risk factors",
      Value.vStr "Use get_segment_data for geographic/product revenue breakdown"])]),
  ("10-Q", Value.vDict [
    ("tools", Value.vList [Value.vStr "get_financials", Value.vStr "get_filing_sections",
      Value.vStr "compare_periods"]),
    ("description", Value.vStr "Quarterly report with unaudited financial statements"),
    ("tips", Value.vList [
      Value.vStr "Use get_financials for quarterly financial data",
      Value.vStr "Use compare_periods to analyze quarter-over-quarter trends"])]),
  ("8-K", Value.vDict [
    ("tools", Value.vList [Value.vStr "analyze_8k", Value.vStr "get_filing_content"]),
    ("description", Value.vStr "Current report for material events"),
    ("tips", Value.vList [
      Value.vStr "Use analyze_8k to identify specific events reported",
      Value.vStr "Check for press releases and material agreements"])]),
  ("4", Value.vDict [
    ("tools", Value.vList [Value.vStr "get_insider_transactions", Value.vStr "analyze_form4_transactions",
      Value.vStr "get_form4_details", Value.vStr "analyze_insider_sentiment"]),
    ("description", Value.vStr "Statement of changes in beneficial ownership"),
    ("tips", Value.vList [
      Value.vStr "Use get_insider_transactions for recent trading activity overview",
      Value.vStr "Use analyze_form4_transactions for detailed transaction analysis and tables",
      Value.vStr "Use analyze_insider_sentiment to understand trading patterns"])]),
  ("DEF 14A", Value.vDict [
    ("tools", Value.vList [Value.vStr "get_filing_content", Value.vStr "get_filing_sections"]),
    ("description", Value.vStr "Proxy statement with executive compensation and governance"),
    ("tips", Value.vList [
      Value.vStr "Look for executive compensation tables",
      Value.vStr "Review shareholder proposals and board information"])]),
  ("CORRESP", Value.vDict [
    ("tools", Value.vList [Value.vStr "get_filing_content"]),
    ("description", Value.vStr "back-and-forth correspondence between the SEC staff and companies regarding a filing."),
    ("tips", Value.vList [
      Value.vStr "look at the context of the filing to understand the correspondence"])])]

/-- The branch of get_recommended_tools after form_type has been uppercased
(server.py lines 468-477): a table hit returns the recommendations block,
a miss returns the general-tools fallback; both are tagged success True. -/
def get_recommended_tools_upper (form_type_upper : String) : Value :=
  match recommendations.lookup form_type_upper with
  | some recs => Value.vDict [
      ("success", Value.vBool true),
      ("form_type", Value.vStr form_type_upper),
      ("recommendations", recs)]
  | none => Value.vDict [
      ("success", Value.vBool true),
      ("form_type", Value.vStr form_type_upper),
      ("message", Value.vStr "No specific recommendations available for this form type"),
      ("general_tools", Value.vList [Value.vStr "get_filing_content", Value.vStr "get_recent_filings"])]

/-- get_recommended_tools (server.py lines 406-477): uppercase the form type,
then branch on table membership. -/
def get_recommended_tools (form_type : String) : Value :=
  get_recommended_tools_upper form_type.toUpper

/-- The context of one call of an exposed operation: wall-clock time and how
many calls came before.  The body of get_recommended_tools (server.py lines
406-477) reads neither the clock nor any mutable state, so its embedding as
an invocation ignores the context. -/
structure CallCtx where
  wall_clock : Nat
  call_index : Nat
deriving DecidableEq, Repr

/-- One invocation of the exposed get_recommended_tools operation in a given
call context. -/
def get_recommended_tools_invoke (_ctx : CallCtx) (form_type : String) : Value :=
  get_recommended_tools form_type

/-- C1: get_recommended_tools is deterministic: two invocations with the same
form_type, at different wall-clock times and call counts, return equal
result dictionaries. -/
theorem getRecommendedTools_deterministic (ctx1 ctx2 : CallCtx) (form_type : String) :
    get_recommended_tools_invoke ctx1 form_type = get_recommended_tools_invoke ctx2 form_type :=
  rfl

/-- C3: every result of get_recommended_tools carries the key "success"
mapped to a boolean (in fact always the boolean true). -/
theorem getRecommendedTools_success_tagged (form_type : String) :
    ∃ b : Bool, (get_recommended_tools form_type).getKey "success" = some (Value.vBool b) := by
  refine ⟨true, ?_⟩
  unfold get_recommended_tools get_recommended_tools_upper
  cases recommendations.lookup form_type.toUpper <;> rfl

/-- Char.toUpper written as a plain conditional (the let in its definition
is definitional). -/
theorem char_toUpper_eq (c : Char) :
    c.toUpper = if c.toNat ≥ 97 ∧ c.toNat ≤ 122 then Char.ofNat (c.toNat - 32) else c := rfl

/-- Char.ofNat at a valid code point has that code point as toNat. -/
theorem char_toNat_ofNat {n : Nat} (h : n.isValidChar) : (Char.ofNat n).toNat = n := by
  simp only [Char.ofNat, dif_pos h]
  rfl

/-- Char.toUpper is idempotent. -/
theorem char_toUpper_toUpper (c : Char) : c.toUpper.toUpper = c.toUpper := by
  by_cases h : c.toNat ≥ 97 ∧ c.toNat ≤ 122
  · have hv : Nat.isValidChar (c.toNat - 32) := Or.inl (by omega)
    have h2 : c.toUpper.toNat = c.toNat - 32 := by
      rw [char_toUpper_eq, if_pos h, char_toNat_ofNat hv]
    rw [char_toUpper_eq c.toUpper, h2, if_neg (by omega)]
  · rw [char_toUpper_eq c, if_neg h, char_toUpper_eq c, if_neg h]

/-- String.toUpper is idempotent (uppercasing an uppercased string is a
no-op, the embedding of Python str.upper over the ASCII range). -/
theorem string_toUpper_toUpper (s : String) : s.toUpper.toUpper = s.toUpper := by
  simp only [String.toUpper, String.map_eq]
  congr 1
  rw [List.map_map]
  exact List.map_congr_left (fun a _ => char_toUpper_toUpper a)

/-- C9: get_recommended_tools is case-insensitive: the result at s equals
the result at s.toUpper, and the form_type field of every result is the
uppercased input. -/
theorem getRecommendedTools_case_insensitive (s : String) :
    get_recommended_tools s = get_recommended_tools s.toUpper ∧
    (get_recommended_tools s).getKey "form_type" = some (Value.vStr s.toUpper) := by
  constructor
  · unfold get_recommended_tools
    rw [string_toUpper_toUpper]
  · unfold get_recommended_tools get_recommended_tools_upper
    cases recommendations.lookup s.toUpper <;> rfl

/-- Does an optional value hold a recommendations block of exactly the keys
tools (a list of strings), description (a string) and tips (a list of
strings)? -/
def recBlockOk : Option Value → Bool
  | some v => (v.keys == some ["tools", "description", "tips"]) &&
      ((v.getKey "tools").map Value.isStrList == some true) &&
      ((v.getKey "description").map Value.isStr == some true) &&
      ((v.getKey "tips").map Value.isStrList == some true)
  | none => false

/-- C2: for each of the six form types of the static table (after
uppercasing) the result is success True together with a recommendations
object holding exactly the keys tools, description and tips. -/
theorem getRecommendedTools_table_shape (ft : String)
    (h : ft.toUpper ∈ ["10-K", "10-Q", "8-K", "4", "DEF 14A", "CORRESP"]) :
    (get_recommended_tools ft).getKey "success" = some (Value.vBool true) ∧
    recBlockOk ((get_recommended_tools ft).getKey "recommendations") = true := by
  unfold get_recommended_tools
  simp only [List.mem_cons, List.not_mem_nil, or_false] at h
  rcases h with h | h | h | h | h | h <;> rw [h] <;> exact ⟨rfl, rfl⟩

/-- Witness for C2 at the concrete input "10-k". -/
theorem getRecommendedTools_table_shape_witness :
    ("10-k".toUpper ∈ ["10-K", "10-Q", "8-K", "4", "DEF 14A", "CORRESP"]) ∧
    (get_recommended_tools "10-k").getKey "success" = some (Value.vBool true) ∧
    recBlockOk ((get_recommended_tools "10-k").getKey "recommendations") = true := by
  have hu : "10-k".toUpper = "10-K" := by
    rw [String.toUpper, String.map_eq]
    decide
  have hmem : "10-k".toUpper ∈ ["10-K", "10-Q", "8-K", "4", "DEF 14A", "CORRESP"] := by
    rw [hu]
    decide
  exact ⟨hmem, getRecommendedTools_table_shape "10-k" hmem⟩

/-- C10: get_recommended_tools is total and never fails: every result is
success True with no error key, and a form type outside the table yields a
message string plus the fixed general_tools list. -/
theorem getRecommendedTools_total (ft : String) :
    (get_recommended_tools ft).getKey "success" = some (Value.vBool true) ∧
    (get_recommended_tools ft).getKey "error" = none ∧
    (recommendations.lookup ft.toUpper = none →
      (∃ m, (get_recommended_tools ft).getKey "message" = some (Value.vStr m)) ∧
      (get_recommended_tools ft).getKey "general_tools" =
        some (Value.vList [Value.vStr "get_filing_content", Value.vStr "get_recent_filings"])) := by
  unfold get_recommended_tools get_recommended_tools_upper
  cases hl : recommendations.lookup ft.toUpper
  · exact ⟨rfl, rfl, fun _ => ⟨⟨_, rfl⟩, rfl⟩⟩
  · exact ⟨rfl, rfl, fun hc => Option.noConfusion hc⟩

/-- Witness for C10 at the concrete unknown form type "S-1". -/
theorem getRecommendedTools_total_witness :
    (∃ m, (get_recommended_tools "S-1").getKey "message" = some (Value.vStr m)) ∧
    (get_recommended_tools "S-1").getKey "general_tools" =
      some (Value.vList [Value.vStr "get_filing_content", Value.vStr "get_recent_filings"]) := by
  have hu : "S-1".toUpper = "S-1" := by
    rw [String.toUpper, String.map_eq]
    decide
  exact (getRecommendedTools_total "S-1").2.2 (by rw [hu]; rfl)

/-- A filing reference (spec section 3): form type, filing date given as a
day number, and accession number. -/
structure FilingRef where
  form_type : String
  filing_date : Nat
  accession_number : String
deriving DecidableEq, Repr

/-- Newest-first ordering on filings: a comes no later than b in the output
when the date of b does not exceed the date of a. -/
def byDateDesc (a b : FilingRef) : Prop := b.filing_date ≤ a.filing_date

instance : DecidableRel byDateDesc := fun a b => Nat.decLe b.filing_date a.filing_date

instance : IsTotal FilingRef byDateDesc := ⟨fun a b => Nat.le_total b.filing_date a.filing_date⟩

instance : IsTrans FilingRef byDateDesc := ⟨fun _ _ _ hab hbc => Nat.le_trans hbc hab⟩

/-- Does the filing date lie within the inclusive lookback window of the
given number of days, anchored at processing time now? -/
def withinWindow (now days : Nat) (f : FilingRef) : Bool :=
  now - f.filing_date ≤ days

/-- Does a filing match the optional form-type filter? -/
def matchesForm (form_type : Option String) (f : FilingRef) : Bool :=
  match form_type with
  | some ft => f.form_type == ft
  | none => true

/-- Modelled from the spec: the body behind get_recent_filings (list_recent in
spec section 4.2) lives in the external FilingsTools class and is not among
the repository sources; following the spec, it keeps the filings that match
the form-type filter and whose filing_date lies in the inclusive days window
anchored at now, sorts them newest first, and only then truncates to limit
(defaults days=30, limit=50 from server.py line 109). -/
def get_recent_filings (filings : List FilingRef) (now : Nat)
    (form_type : Option String) (days : Nat := 30) (limit : Nat := 50) : List FilingRef :=
  ((filings.filter (fun f => matchesForm form_type f && withinWindow now days f)).insertionSort
    byDateDesc).take limit

/-- C4: at the defaults days=30 and limit=50, get_recent_filings returns at
most 50 filings, all drawn from the input and within 30 days of processing
time, sorted by filing date descending; a filing exactly 30 days old passes
the window, one 31 days old does not, and truncation happens only after
filtering and sorting. -/
theorem getRecentFilings_windowing (filings : List FilingRef) (now : Nat) :
    (get_recent_filings filings now (some "8-K")).length ≤ 50 ∧
    (∀ f, f ∈ get_recent_filings filings now (some "8-K") →
      f ∈ filings ∧ now - f.filing_date ≤ 30) ∧
    List.Sorted byDateDesc (get_recent_filings filings now (some "8-K")) ∧
    (∀ f : FilingRef, now = f.filing_date + 30 → withinWindow now 30 f = true) ∧
    (∀ f : FilingRef, now = f.filing_date + 31 → withinWindow now 30 f = false) ∧
    get_recent_filings filings now (some "8-K") =
      ((filings.filter (fun f => matchesForm (some "8-K") f && withinWindow now 30 f)).insertionSort
        byDateDesc).take 50 := by
  refine ⟨List.length_take_le _ _, ?_, ?_, ?_, ?_, rfl⟩
  · intro f hf
    have hf1 := List.mem_of_mem_take hf
    rw [List.mem_insertionSort] at hf1
    have hf2 := List.mem_filter.mp hf1
    refine ⟨hf2.1, ?_⟩
    have hb := hf2.2
    simp only [Bool.and_eq_true, withinWindow, decide_eq_true_eq] at hb
    exact hb.2
  · exact List.Pairwise.sublist (List.take_sublist _ _)
      (List.sorted_insertionSort byDateDesc _)
  · intro f h
    simp only [withinWindow, decide_eq_true_eq]
    omega
  · intro f h
    simp only [withinWindow, decide_eq_false_iff_not]
    omega

/-- Witness for C4 on a concrete filing list at processing time 100: the
8-K filed on day 95 is returned and lies in the window, the window accepts
age exactly 30 and rejects age 31. -/
theorem getRecentFilings_windowing_witness :
    ((⟨"8-K", 95, "acc-2"⟩ : FilingRef) ∈
        [(⟨"8-K", 80, "acc-1"⟩ : FilingRef), ⟨"8-K", 95, "acc-2"⟩, ⟨"8-K", 60, "acc-4"⟩,
          ⟨"10-K", 99, "acc-3"⟩] ∧
      100 - (95 : Nat) ≤ 30) ∧
    withinWindow 100 30 ⟨"8-K", 70, "acc-5"⟩ = true ∧
    withinWindow 100 30 ⟨"8-K", 69, "acc-6"⟩ = false := by
  have h := getRecentFilings_windowing
    [⟨"8-K", 80, "acc-1"⟩, ⟨"8-K", 95, "acc-2"⟩, ⟨"8-K", 60, "acc-4"⟩, ⟨"10-K", 99, "acc-3"⟩] 100
  exact ⟨h.2.1 ⟨"8-K", 95, "acc-2"⟩ (by decide),
    h.2.2.2.1 ⟨"8-K", 70, "acc-5"⟩ (by decide),
    h.2.2.2.2.1 ⟨"8-K", 69, "acc-6"⟩ (by decide)⟩

/-- One entry of the compare_periods output: the year, the metric value for
that year when found (null otherwise) and the accession number of the filing
it came from. -/
structure PeriodEntry where
  year : Nat
  value : Option Int
  filing_accession : Option String
deriving DecidableEq, Repr

/-- Modelled from the spec: compare_periods (spec section 4.3) is implemented
in the external FinancialTools class and is not among the repository sources;
following the spec, for each year from start_year to end_year inclusive it
locates the filing covering that fiscal year and extracts the single requested
metric (the external filing data abstracted as the lookup yearData); a year
with no covering filing or no matching concept appears with a null value
rather than being omitted. -/
def compare_periods (yearData : Nat → Option (Int × String)) (start_year end_year : Nat) :
    List PeriodEntry :=
  (List.range (end_year + 1 - start_year)).map (fun i =>
    match yearData (start_year + i) with
    | some (v, acc) => ⟨start_year + i, some v, some acc⟩
    | none => ⟨start_year + i, none, none⟩)

/-- C5: for start_year up to end_year, compare_periods returns exactly
end_year - start_year + 1 entries, one per year of the inclusive range in
order, and a year whose data is unavailable appears with a null value
rather than being omitted. -/
theorem comparePeriods_contiguous (yearData : Nat → Option (Int × String))
    (start_year end_year : Nat) (h : start_year ≤ end_year) :
    (compare_periods yearData start_year end_year).length = end_year - start_year + 1 ∧
    (compare_periods yearData start_year end_year).map PeriodEntry.year =
      (List.range (end_year + 1 - start_year)).map (fun i => start_year + i) ∧
    (∀ y, start_year ≤ y → y ≤ end_year → ∃ entry,
      entry ∈ compare_periods yearData start_year end_year ∧ entry.year = y ∧
      (yearData y = none → entry.value = none)) := by
  refine ⟨?_, ?_, ?_⟩
  · simp only [compare_periods, List.length_map, List.length_range]
    omega
  · rw [compare_periods, List.map_map]
    refine List.map_congr_left (fun i _ => ?_)
    simp only [Function.comp_apply]
    cases yearData (start_year + i) with
    | none => rfl
    | some p => cases p; rfl
  · intro y hy1 hy2
    have hyi : y = start_year + (y - start_year) := by omega
    have hmem : (y - start_year) ∈ List.range (end_year + 1 - start_year) := by
      rw [List.mem_range]; omega
    rw [compare_periods]
    refine ⟨_, List.mem_map_of_mem _ hmem, ?_⟩
    rw [← hyi]
    cases hd : yearData y with
    | none => exact ⟨rfl, fun _ => rfl⟩
    | some p =>
      obtain ⟨v, acc⟩ := p
      exact ⟨rfl, fun hc => Option.noConfusion hc⟩

/-- Concrete year data for the C5 witness: a value for 2020, 2022 and 2023
but none for 2021. -/
def demoYearData : Nat → Option (Int × String) := fun y =>
  if y = 2020 then some (100, "acc-2020")
  else if y = 2022 then some (120, "acc-2022")
  else if y = 2023 then some (130, "acc-2023")
  else none

/-- Witness for C5: the query 2020-2023 over data lacking 2021 still yields
4 entries, with a null-valued entry for 2021. -/
theorem comparePeriods_contiguous_witness :
    (compare_periods demoYearData 2020 2023).length = 2023 - 2020 + 1 ∧
    (∃ entry, entry ∈ compare_periods demoYearData 2020 2023 ∧ entry.year = 2021 ∧
      (demoYearData 2021 = none → entry.value = none)) := by
  have h := comparePeriods_contiguous demoYearData 2020 2023 (by decide)
  exact ⟨h.1, h.2.2 2021 (by decide) (by decide)⟩

/-- The statement_type values accepted by get_financials, from its interface
documentation in server.py line 188: "income", "balance", "cash", or "all". -/
def statementTypes : List String := ["income", "balance", "cash", "all"]

/-- The argument of get_financials: either a specific filing or a company
together with its filings. -/
inductive FinTarget where
  | filing : FilingRef → FinTarget
  | company : List FilingRef → FinTarget
deriving DecidableEq, Repr

/-- Modelled from the spec: when get_financials is given a company rather
than a specific filing it resolves the most recent 10-K/10-Q automatically
(spec section 4.3); the resolution logic lives in the external
FinancialTools class and is not among the repository sources. -/
def resolveFinancialFiling : FinTarget → Option FilingRef
  | FinTarget.filing f => some f
  | FinTarget.company fs =>
      ((fs.filter (fun f => f.form_type == "10-K" || f.form_type == "10-Q")).insertionSort
        byDateDesc).head?

/-- Modelled from the spec: get_financials (spec section 4.3) is implemented
in the external FinancialTools class and is not among the repository sources;
following the spec and the interface documentation in server.py, it validates
statement_type against the accepted set (default "all" from server.py line
169), resolves the filing, and extracts the requested statements (extraction
operates on external filing data; the model returns the filing used together
with the statement type requested). -/
def get_financials (target : FinTarget) (statement_type : String := "all") :
    Option (FilingRef × String) :=
  if statement_type ∈ statementTypes then
    (resolveFinancialFiling target).map (fun f => (f, statement_type))
  else none

/-- C6 counterexample: the accepted statement types are "income", "balance",
"cash" and "all" (server.py line 188), so the claimed "cashflow" is not an
accepted statement type and is rejected at a concrete input. -/
theorem getFinancials_cashflow_counterexample :
    "cashflow" ∉ statementTypes ∧
    get_financials (FinTarget.filing ⟨"10-K", 100, "acc-1"⟩) "cashflow" = none := by
  decide

/-- C6 amended: get_financials defaults statement_type to "all", accepts
exactly the documented set income/balance/cash/all (rejecting anything
else), and when given a company resolves the most recent filing among the
10-K/10-Q filings before extracting. -/
theorem getFinancials_amended (target : FinTarget) (st : String) (fs : List FilingRef)
    (f : FilingRef) :
    (get_financials target = get_financials target "all") ∧
    (st ∈ statementTypes →
      get_financials target st = (resolveFinancialFiling target).map (fun g => (g, st))) ∧
    (st ∉ statementTypes → get_financials target st = none) ∧
    (resolveFinancialFiling (FinTarget.company fs) = some f →
      f ∈ fs ∧ (f.form_type = "10-K" ∨ f.form_type = "10-Q") ∧
      ∀ g ∈ fs, (g.form_type = "10-K" ∨ g.form_type = "10-Q") →
        g.filing_date ≤ f.filing_date) := by
  refine ⟨rfl, ?_, ?_, ?_⟩
  · intro hst
    rw [get_financials, if_pos hst]
  · intro hst
    rw [get_financials, if_neg hst]
  · intro h
    simp only [resolveFinancialFiling] at h
    cases hl : (fs.filter (fun f => f.form_type == "10-K" || f.form_type == "10-Q")).insertionSort
        byDateDesc with
    | nil => rw [hl] at h; exact Option.noConfusion h
    | cons a t =>
      rw [hl] at h
      have haf : a = f := by
        simp only [List.head?] at h
        exact Option.some.inj h
      subst haf
      have hs : List.Sorted byDateDesc (a :: t) := by
        rw [← hl]
        exact List.sorted_insertionSort byDateDesc _
      have hmema : a ∈ (fs.filter (fun f => f.form_type == "10-K" || f.form_type == "10-Q")) := by
        rw [← List.mem_insertionSort (r := byDateDesc), hl]
        exact List.mem_cons_self a t
      have hmema2 := List.mem_filter.mp hmema
      have hforma : a.form_type = "10-K" ∨ a.form_type = "10-Q" := by
        have hb := hmema2.2
        simp only [Bool.or_eq_true, beq_iff_eq] at hb
        exact hb
      refine ⟨hmema2.1, hforma, ?_⟩
      intro g hg hgform
      have hgmem : g ∈ (fs.filter (fun f => f.form_type == "10-K" || f.form_type == "10-Q")) := by
        refine List.mem_filter.mpr ⟨hg, ?_⟩
        simp only [Bool.or_eq_true, beq_iff_eq]
        exact hgform
      rw [← List.mem_insertionSort (r := byDateDesc), hl, List.mem_cons] at hgmem
      rcases hgmem with hga | hgt
      · rw [hga]
      · exact List.rel_of_sorted_cons hs g hgt

/-- Concrete filing list for the C6 witness. -/
def demoFilings : List FilingRef :=
  [⟨"10-K", 50, "acc-k"⟩, ⟨"10-Q", 80, "acc-q"⟩, ⟨"8-K", 90, "acc-e"⟩]

/-- Witness for C6: at a concrete company, "cash" is accepted and the
resolved filing is the 10-Q of day 80, the most recent 10-K/10-Q. -/
theorem getFinancials_amended_witness :
    ("cash" ∈ statementTypes ∧
      get_financials (FinTarget.company demoFilings) "cash" =
        (resolveFinancialFiling (FinTarget.company demoFilings)).map (fun g => (g, "cash"))) ∧
    ((⟨"10-Q", 80, "acc-q"⟩ : FilingRef) ∈ demoFilings ∧
      (FilingRef.form_type ⟨"10-Q", 80, "acc-q"⟩ = "10-K" ∨
        FilingRef.form_type ⟨"10-Q", 80, "acc-q"⟩ = "10-Q")) := by
  have h := getFinancials_amended (FinTarget.company demoFilings) "cash" demoFilings
    ⟨"10-Q", 80, "acc-q"⟩
  refine ⟨⟨by decide, h.2.1 (by decide)⟩, ?_⟩
  have h4 := h.2.2.2 (by decide)
  exact ⟨h4.1, h4.2.1⟩

/-- The known standard XBRL namespaces (utils/constants.py lines 18-22). -/
def XBRL_NAMESPACES : List (String × String) := [
  ("dei", "http://xbrl.sec.gov/dei"),
  ("us-gaap", "http://fasb.org/us-gaap"),
  ("ifrs", "http://xbrl.ifrs.org/taxonomy")]

/-- One tagged concept discovered in a filing: its namespace abbreviation
and its concept name. -/
structure XbrlConcept where
  ns : String
  name : String
deriving DecidableEq, Repr

/-- Is a namespace abbreviation in the known-standard set (a key of
XBRL_NAMESPACES)? -/
def isStandardNamespace (ns : String) : Bool :=
  (XBRL_NAMESPACES.map Prod.fst).contains ns

/-- Modelled from the spec: discover_xbrl_concepts (spec section 4.3) is
implemented in the external FinancialTools class and is not among the
repository sources; following the spec, it separates standard taxonomy
concepts from filer-specific extension concepts, an extension concept being
one whose namespace is not in the known-standard set XBRL_NAMESPACES
(utils/constants.py). -/
def discover_xbrl_concepts (concepts : List XbrlConcept) : List XbrlConcept × List XbrlConcept :=
  (concepts.filter (fun c => isStandardNamespace c.ns),
   concepts.filter (fun c => !isStandardNamespace c.ns))

/-- C7: the known-standard set is exactly the three-entry mapping dei,
us-gaap, ifrs to their taxonomy URIs, and discover_xbrl_concepts separates
concepts into standard and extension exactly by membership of their
namespace in that set. -/
theorem discoverXbrlConcepts_separation (concepts : List XbrlConcept) (c : XbrlConcept) :
    XBRL_NAMESPACES = [("dei", "http://xbrl.sec.gov/dei"), ("us-gaap", "http://fasb.org/us-gaap"),
      ("ifrs", "http://xbrl.ifrs.org/taxonomy")] ∧
    (c ∈ (discover_xbrl_concepts concepts).1 ↔
      c ∈ concepts ∧ isStandardNamespace c.ns = true) ∧
    (c ∈ (discover_xbrl_concepts concepts).2 ↔
      c ∈ concepts ∧ isStandardNamespace c.ns = false) ∧
    (isStandardNamespace c.ns = true ↔ c.ns ∈ ["dei", "us-gaap", "ifrs"]) := by
  refine ⟨rfl, ?_, ?_, ?_⟩
  · simp [discover_xbrl_concepts, List.mem_filter]
  · simp [discover_xbrl_concepts, List.mem_filter]
  · simp [isStandardNamespace, XBRL_NAMESPACES, List.contains, List.elem_eq_mem]

/-- Witness for C7: a us-gaap concept lands in the standard part and a
filer-specific concept in the extension part. -/
theorem discoverXbrlConcepts_separation_witness :
    ((⟨"us-gaap", "Revenues"⟩ : XbrlConcept) ∈
      (discover_xbrl_concepts [⟨"us-gaap", "Revenues"⟩, ⟨"nvda", "CustomTag"⟩]).1) ∧
    ((⟨"nvda", "CustomTag"⟩ : XbrlConcept) ∈
      (discover_xbrl_concepts [⟨"us-gaap", "Revenues"⟩, ⟨"nvda", "CustomTag"⟩]).2) := by
  have h1 := discoverXbrlConcepts_separation [⟨"us-gaap", "Revenues"⟩, ⟨"nvda", "CustomTag"⟩]
    ⟨"us-gaap", "Revenues"⟩
  have h2 := discoverXbrlConcepts_separation [⟨"us-gaap", "Revenues"⟩, ⟨"nvda", "CustomTag"⟩]
    ⟨"nvda", "CustomTag"⟩
  exact ⟨h1.2.1.mpr ⟨by decide, by decide⟩, h2.2.2.1.mpr ⟨by decide, by decide⟩⟩

/-- A company reference (spec section 3). -/
structure CompanyRef where
  cik : Nat
  name : String
deriving DecidableEq, Repr

/-- Modelled from the spec: search_companies (search in spec section 4.1) is
implemented in the external CompanyTools class and is not among the
repository sources; following the spec, it returns the relevance-ranked
sequence of matches (the external ranked lookup) truncated to limit, whose
default is 10 (server.py line 81). -/
def search_companies (ranked : String → List CompanyRef) (query : String)
    (limit : Nat := 10) : List CompanyRef :=
  (ranked query).take limit

/-- C8: search_companies truncates the ranked result sequence to limit, the
result is an initial segment of the ranked sequence, and omitting limit
behaves identically to limit = 10. -/
theorem searchCompanies_truncation (ranked : String → List CompanyRef) (query : String)
    (limit : Nat) :
    search_companies ranked query = search_companies ranked query 10 ∧
    (search_companies ranked query limit).length ≤ limit ∧
    search_companies ranked query limit ++ (ranked query).drop limit = ranked query :=
  ⟨rfl, List.length_take_le _ _, List.take_append_drop _ _⟩
